import Mathlib

/-!
Verification of the gitstatus daemon core against its specification.

The development shallowly embeds the two source files:
- `src/src/dir.cc` — the directory lister `ListDir` (Linux raw-syscall path
  and portable path) together with its `Dots` filter;
- `src/unnamed/part_000` — `ProcessRequest` and the `GitStatus` request
  loop.

External effects (syscall results, libgit2 wrapper results, exceptions)
are supplied by explicit environments, so every definition is executable
and every control-flow path of the source is represented.
-/

namespace Gitstatus

/-- A raw directory entry as produced by the `getdents64` / `readdir`
syscalls: the filesystem-type tag byte (`d_type`) and the name bytes of
the NUL-terminated `d_name` (the bytes before the terminating NUL). -/
structure Dirent where
  dtype : Nat
  dname : List Nat
  deriving DecidableEq

/-- Embeds `Dots` from `src/src/dir.cc` (lines 38-44): the sequential byte
checks `name[0] == '.'`, then `name[1] == 0`, then `name[1] == '.' &&
name[2] == 0`, on the byte list before the terminating NUL ('.' is byte
46, and `name[k] == 0` means the list ends before index `k`). -/
def Dots (name : List Nat) : Bool :=
  match name with
  | [] => false
  | c0 :: rest0 =>
    if c0 = 46 then
      match rest0 with
      | [] => true
      | c1 :: rest1 =>
        if c1 = 46 then
          match rest1 with
          | [] => true
          | _ :: _ => false
        else false
    else false

/-- The entry-appending loop body shared verbatim by both `ListDir`
implementations (`src/src/dir.cc` lines 73-81 and 92-97): for each entry
that is not "." or "..", append the type byte to the arena, push the new
arena size (the offset of the first name byte) onto the index vector, then
append the name bytes and two NUL bytes. -/
def listDirLoop : List Dirent → List Nat → List Nat → List Nat × List Nat
  | [], arena, entries => (arena, entries)
  | d :: ds, arena, entries =>
    if Dots d.dname then listDirLoop ds arena entries
    else listDirLoop ds (arena ++ d.dtype :: (d.dname ++ [0, 0])) (entries ++ [arena.length + 1])

/-- One result of a `SYS_getdents64` call in the Linux `ListDir`: an error
(`n < 0`), end of directory (`n = 0`), or a batch of parsed entries
(`n > 0`). -/
inductive ReadRes where
  | rerr : ReadRes
  | rend : ReadRes
  | rdata : List Dirent → ReadRes
  deriving DecidableEq

/-- The `getdents64` read loop of the Linux `ListDir` (`src/src/dir.cc`
lines 69-83), driven by the sequence of syscall results. `none` means the
supplied syscall trace ran out before the loop terminated (an incomplete
trace, not a behaviour of the code). -/
def getdentsLoop : List ReadRes → List Nat → List Nat → Option (Bool × List Nat × List Nat)
  | [], _, _ => none
  | ReadRes.rerr :: _, arena, entries => some (false, arena, entries)
  | ReadRes.rend :: _, arena, entries => some (true, arena, entries)
  | ReadRes.rdata es :: rest, arena, entries =>
    getdentsLoop rest (listDirLoop es arena entries).1 (listDirLoop es arena entries).2

/-- The Linux `ListDir` (`src/src/dir.cc` lines 50-84): `openOk` tells
whether the `open` syscall succeeded; on failure the function returns
`false` with the caller's `arena` and `entries` untouched, otherwise it
clears both outputs and runs the read loop. -/
def ListDirLinux (openOk : Bool) (reads : List ReadRes) (arena entries : List Nat) :
    Option (Bool × List Nat × List Nat) :=
  if openOk then getdentsLoop reads [] [] else some (false, arena, entries)

/-- The portable `ListDir` (`src/src/dir.cc` lines 88-100): on `opendir`
failure return `false` with the outputs untouched; otherwise append every
entry returned by `readdir` (which signals only end-of-stream, never an
error) and return `true`. The outputs are never cleared. -/
def ListDirPortable (openOk : Bool) (ents : List Dirent) (arena entries : List Nat) :
    Bool × List Nat × List Nat :=
  if openOk then (true, (listDirLoop ents arena entries).1, (listDirLoop ents arena entries).2)
  else (false, arena, entries)

/-- The byte layout of one directory entry in the arena as the spec
describes it (4.L1): one type tag byte, the name bytes, two NUL bytes. -/
def entryBytes (d : Dirent) : List Nat :=
  d.dtype :: (d.dname ++ [0, 0])

/-- The name offsets recorded for a list of entries appended starting at
arena size `base`: each entry's name starts one byte (the type tag) past
the entry's start. -/
def offsets (base : Nat) : List Dirent → List Nat
  | [] => []
  | d :: ds => (base + 1) :: offsets (base + (entryBytes d).length) ds

/-- Which terminator a `getdents64` syscall trace reaches first:
`some true` for end-of-directory, `some false` for a read error, `none`
for a trace with no terminator. -/
def firstTerm : List ReadRes → Option Bool
  | [] => none
  | ReadRes.rerr :: _ => some false
  | ReadRes.rend :: _ => some true
  | ReadRes.rdata _ :: rest => firstTerm rest

/-- The entries that survive the `Dots` filter. -/
def kept (ds : List Dirent) : List Dirent :=
  ds.filter (fun d => !Dots d.dname)

/-- Outcome of `cache.Open(req.dir)` (`src/unnamed/part_000` line 45): a
repository handle, a null pointer (not a repo), or a thrown exception. -/
inductive OpenRes where
  | orepo : OpenRes
  | onull : OpenRes
  | othrow : OpenRes
  deriving DecidableEq

/-- Outcome of `Head(repo->repo())` (`src/unnamed/part_000` line 48): a
reference, a null pointer, or a thrown exception. -/
inductive HeadRes where
  | hok : HeadRes
  | hnull : HeadRes
  | hthrow : HeadRes
  deriving DecidableEq

/-- How the body of `ProcessRequest` stops before reaching `resp.Dump`:
an early `return` or a thrown exception. -/
inductive Halt where
  | hret : Halt
  | hexc : Halt
  deriving DecidableEq

/-- Events on the tag future inside `ProcessRequest`: its creation by
`repo->GetTagName` (line 53), the `tag.wait()` performed by the scope
guard when the future is still valid at scope exit (lines 54-61), and the
`tag.get()` on the success path (line 111), which drains the future and
leaves it invalid. -/
inductive Ev where
  | tagCreate : Ev
  | tagWait : Ev
  | tagGet : Ev
  deriving DecidableEq

/-- How `ProcessRequest` exits: an early `return`, an exception
propagating to the caller, or normal completion through `resp.Dump`. -/
inductive ExitKind where
  | retEarly : ExitKind
  | exc : ExitKind
  | normal : ExitKind
  deriving DecidableEq

/-- The per-request environment: the results of every external call made
by `ProcessRequest` (`src/unnamed/part_000` lines 40-114). `throwAt`
selects which fallible libgit2 wrapper call, numbered in program order
after the tag future's creation (0 `LocalBranchName`, 1 `Upstream`,
2 `RemoteBranchName`, 3 `RemoteUrl`, 4 `RepoState`, 5 `GetIndexStats`,
6 `CountRange` ahead, 7 `CountRange` behind, 8 `NumStashes`), throws an
exception, if any; `tagResult` is what `tag.get()` yields (a name or a
rethrown exception). -/
structure PREnv where
  openRes : OpenRes
  headRes : HeadRes
  headTarget : Option String
  workdirRaw : Option (List Char)
  localBranch : String
  upstream : Option String
  remoteBranch : String → String
  remoteUrl : String → String
  repoState : String
  hasStaged : Int
  hasUnstaged : Int
  hasUntracked : Int
  countRange : String → Nat
  numStashes : Nat
  tagResult : Except Unit String
  throwAt : Option Nat

/-- Modelled from the spec: `ResponseWriter::Dump` (response.h/response.cc
are not under src/). Spec 6: the response record is `id`, then `is_repo =
"1"`, then the printed fields, in order. -/
def dumpResponse (reqId : String) (fields : List String) : List String :=
  reqId :: "1" :: fields

/-- Modelled from the spec: the `ResponseWriter` destructor
(response.h/response.cc are not under src/). Spec 6 and 7: when the
request is not processed to completion, the emitted record is the `id`
followed by `is_repo = "0"` and no further fields. -/
def abortResponse (reqId : String) : List String :=
  [reqId, "0"]

/-- The trailing-slash stripping applied to the working directory by
`ProcessRequest` (`src/unnamed/part_000` line 66): drop the final '/'
only when the length exceeds 1. -/
def stripSlashChars (w : List Char) : List Char :=
  if 1 < w.length ∧ w.getLast? = some '/' then w.dropLast else w

/-- The spec's wording for the `workdir` field (spec 6, field 3): the
trailing slash is stripped unless the path is the one-character root. -/
def specStripSlash (w : List Char) : List Char :=
  if w.length = 1 then w
  else if w.getLast? = some '/' then w.dropLast else w

/-- The `workdir` field value: `git_repository_workdir` with the
trailing-slash stripping of `src/unnamed/part_000` lines 64-67. -/
def wdFieldOf (env : PREnv) : String :=
  String.mk (stripSlashChars (env.workdirRaw.getD []))

/-- The `commit` field value: the OID string, or empty for an unborn
branch (`src/unnamed/part_000` line 70). -/
def commitOf (env : PREnv) : String :=
  env.headTarget.getD ""

/-- The `upstream_branch` field value: the ternary
`upstream ? RemoteBranchName(...) : ""` (`src/unnamed/part_000` line 80). -/
def upFieldOf (env : PREnv) : String :=
  match env.upstream with
  | some u => env.remoteBranch u
  | none => ""

/-- The `remote_url` field value: the ternary
`upstream ? RemoteUrl(...) : ""` (`src/unnamed/part_000` line 83). -/
def urlFieldOf (env : PREnv) : String :=
  match env.upstream with
  | some u => env.remoteUrl u
  | none => ""

/-- The `ahead` field value: `CountRange(repo, shorthand + "..HEAD")`
when an upstream exists, else the printed 0 (`src/unnamed/part_000`
lines 97-104). -/
def aheadOf (env : PREnv) : String :=
  match env.upstream with
  | some u => toString (env.countRange (u ++ "..HEAD"))
  | none => "0"

/-- The `behind` field value: `CountRange(repo, "HEAD.." + shorthand)`
when an upstream exists, else the printed 0 (`src/unnamed/part_000`
lines 97-105). -/
def behindOf (env : PREnv) : String :=
  match env.upstream with
  | some u => toString (env.countRange ("HEAD.." ++ u))
  | none => "0"

/-- The fields printed by `resp.Print`, in the order of the Print calls
of `src/unnamed/part_000` lines 67-108: workdir, commit, local branch,
upstream branch, remote url, repo state, has_staged, has_unstaged,
has_untracked, ahead, behind, num_stashes. -/
def prFields (env : PREnv) : List String :=
  [wdFieldOf env, commitOf env, env.localBranch, upFieldOf env, urlFieldOf env,
   env.repoState, toString env.hasStaged, toString env.hasUnstaged,
   toString env.hasUntracked, aheadOf env, behindOf env, toString env.numStashes]

/-- Whether the fallible call selected by `env.throwAt` is reached and
throws: calls 0 `LocalBranchName`, 1 `Upstream`, 4 `RepoState`,
5 `GetIndexStats` and 8 `NumStashes` are always reached, while calls
2 `RemoteBranchName`, 3 `RemoteUrl`, 6 and 7 `CountRange` are made only
when an upstream exists (`src/unnamed/part_000` lines 73-108). -/
def prThrows (env : PREnv) : Bool :=
  match env.throwAt with
  | none => false
  | some k =>
    k == 0 || k == 1 || (env.upstream.isSome && (k == 2 || k == 3)) ||
    k == 4 || k == 5 || (env.upstream.isSome && (k == 6 || k == 7)) || k == 8

/-- The body of `ProcessRequest` after the creation of the tag future
(`src/unnamed/part_000` lines 63-108): an early return when the working
directory is empty (line 65), an exception when one of the reached
libgit2 wrapper calls throws, and otherwise the ordered list of fields
printed via `resp.Print`. -/
def prBody (env : PREnv) : Except Halt (List String) :=
  if (env.workdirRaw.getD []).length = 0 then Except.error Halt.hret
  else if prThrows env then Except.error Halt.hexc
  else Except.ok (prFields env)

/-- What one run of `ProcessRequest` produces: the response records
emitted (by `resp.Dump` or by the `ResponseWriter` destructor), the tag
future events in order, and the way the function exited. -/
structure PRResult where
  output : List (List String)
  events : List Ev
  exit : ExitKind
  deriving DecidableEq

/-- Embeds `ProcessRequest` (`src/unnamed/part_000` lines 40-114). Before
the tag future exists (lines 44-52), a null result returns early and an
exception unwinds; in both cases the `ResponseWriter` destructor emits the
abort record. Once `repo->GetTagName` has run (line 53), the scope guard
of lines 54-61 performs `tag.wait()` on every early return and every
unwinding exception, while the success path reaches `tag.get()` (line
111), after which the future is no longer valid, so the guard does not
wait again — also when `tag.get()` itself rethrows the resolver's
exception. -/
def ProcessRequest (env : PREnv) (reqId : String) : PRResult :=
  match env.openRes with
  | OpenRes.othrow => ⟨[abortResponse reqId], [], ExitKind.exc⟩
  | OpenRes.onull => ⟨[abortResponse reqId], [], ExitKind.retEarly⟩
  | OpenRes.orepo =>
    match env.headRes with
    | HeadRes.hthrow => ⟨[abortResponse reqId], [], ExitKind.exc⟩
    | HeadRes.hnull => ⟨[abortResponse reqId], [], ExitKind.retEarly⟩
    | HeadRes.hok =>
      match prBody env with
      | Except.error Halt.hret =>
        ⟨[abortResponse reqId], [Ev.tagCreate, Ev.tagWait], ExitKind.retEarly⟩
      | Except.error Halt.hexc =>
        ⟨[abortResponse reqId], [Ev.tagCreate, Ev.tagWait], ExitKind.exc⟩
      | Except.ok fields =>
        match env.tagResult with
        | Except.error _ => ⟨[abortResponse reqId], [Ev.tagCreate, Ev.tagGet], ExitKind.exc⟩
        | Except.ok tname =>
          ⟨[dumpResponse reqId (fields ++ [tname])], [Ev.tagCreate, Ev.tagGet], ExitKind.normal⟩

/-- One iteration's input in the request loop: what `reader.ReadRequest()`
does — either it throws (malformed request) or it yields a request id
together with that request's processing environment. -/
inductive ReadReq where
  | malformed : ReadReq
  | good : String → PREnv → ReadReq

/-- Log lines of the request loop (`src/unnamed/part_000` lines 129-141):
the parse-error log, the "Processing request" line, the success line, and
the "Error processing request" line of the inner catch. -/
inductive LogEv where
  | logReadError : LogEv
  | logProcessing : LogEv
  | logSuccess : LogEv
  | logProcError : LogEv
  deriving DecidableEq

/-- The request loop of `GitStatus` (`src/unnamed/part_000` lines
129-141) run over a finite prefix of the input stream, returning the
emitted responses and the log lines. A malformed request makes
`ReadRequest` throw; the outer catch swallows the exception and the loop
continues. The parse-error logging itself happens inside `ReadRequest`
and is modelled from the spec (request.cc is not under src/): spec 7,
"parse-error on a request is logged and the request is dropped". -/
def GitStatusLoop : List ReadReq → List (List String) × List LogEv
  | [] => ([], [])
  | ReadReq.malformed :: rest =>
    ((GitStatusLoop rest).1, LogEv.logReadError :: (GitStatusLoop rest).2)
  | ReadReq.good reqId env :: rest =>
    ((ProcessRequest env reqId).output ++ (GitStatusLoop rest).1,
      (LogEv.logProcessing ::
        (if (ProcessRequest env reqId).exit = ExitKind.exc then [LogEv.logProcError]
         else [LogEv.logSuccess])) ++ (GitStatusLoop rest).2)

/-- A sample environment: a repository with an upstream, a trailing-slash
working directory, and a resolved tag. -/
def envUp : PREnv where
  openRes := OpenRes.orepo
  headRes := HeadRes.hok
  headTarget := some "3a5c"
  workdirRaw := some ['/', 'h', '/', 'r', '/']
  localBranch := "master"
  upstream := some "origin/master"
  remoteBranch := fun _ => "master"
  remoteUrl := fun _ => "git@host:r"
  repoState := ""
  hasStaged := 1
  hasUnstaged := 0
  hasUntracked := -1
  countRange := fun s => s.length
  numStashes := 2
  tagResult := Except.ok "v1.0"
  throwAt := none

/-- A sample environment in which `cache.Open` finds no repository. -/
def envNull : PREnv where
  openRes := OpenRes.onull
  headRes := HeadRes.hok
  headTarget := none
  workdirRaw := none
  localBranch := ""
  upstream := none
  remoteBranch := fun _ => ""
  remoteUrl := fun _ => ""
  repoState := ""
  hasStaged := 0
  hasUnstaged := 0
  hasUntracked := 0
  countRange := fun _ => 0
  numStashes := 0
  tagResult := Except.ok ""
  throwAt := none

end Gitstatus

namespace Gitstatus

theorem listDirLoop_append (xs ys : List Dirent) (a e : List Nat) :
    listDirLoop (xs ++ ys) a e =
      listDirLoop ys (listDirLoop xs a e).1 (listDirLoop xs a e).2 := by
  induction xs generalizing a e with
  | nil => simp [listDirLoop]
  | cons d ds ih =>
    by_cases hd : Dots d.dname
    · simp [listDirLoop, hd, ih]
    · simp [listDirLoop, hd, ih]

theorem listDirLoop_char (ds : List Dirent) (a e : List Nat) :
    listDirLoop ds a e =
      (a ++ (List.map entryBytes (kept ds)).flatten, e ++ offsets a.length (kept ds)) := by
  induction ds generalizing a e with
  | nil => simp [listDirLoop, kept, offsets]
  | cons d ds ih =>
    by_cases hd : Dots d.dname
    · simp [listDirLoop, hd, kept, List.filter_cons, ih]
    · have h1 : listDirLoop (d :: ds) a e =
          listDirLoop ds (a ++ d.dtype :: (d.dname ++ [0, 0])) (e ++ [a.length + 1]) := by
        simp [listDirLoop, hd]
      have h2 : kept (d :: ds) = d :: kept ds := by
        simp [kept, List.filter_cons, hd]
      rw [h1, ih, h2]
      simp [offsets, entryBytes, List.append_assoc, List.length_append, Nat.add_assoc]

theorem getdentsLoop_firstTerm (reads : List ReadRes) (a e a2 e2 : List Nat) (r : Bool)
    (h : getdentsLoop reads a e = some (r, a2, e2)) :
    firstTerm reads = some r := by
  induction reads generalizing a e with
  | nil => simp [getdentsLoop] at h
  | cons x rest ih =>
    cases x with
    | rerr =>
      simp only [getdentsLoop, Option.some.injEq, Prod.mk.injEq] at h
      obtain ⟨h1, -, -⟩ := h
      subst h1
      simp [firstTerm]
    | rend =>
      simp only [getdentsLoop, Option.some.injEq, Prod.mk.injEq] at h
      obtain ⟨h1, -, -⟩ := h
      subst h1
      simp [firstTerm]
    | rdata es =>
      simp only [getdentsLoop] at h
      simpa [firstTerm] using ih _ _ h

theorem getdentsLoop_batches (batches : List (List Dirent)) (rest : List ReadRes)
    (a e : List Nat) :
    getdentsLoop (batches.map ReadRes.rdata ++ ReadRes.rerr :: rest) a e =
      some (false, (listDirLoop batches.flatten a e).1, (listDirLoop batches.flatten a e).2) := by
  induction batches generalizing a e with
  | nil => simp [getdentsLoop, listDirLoop]
  | cons b bs ih =>
    simp only [List.map_cons, List.cons_append, getdentsLoop, List.flatten_cons,
      List.append_eq]
    rw [ih, listDirLoop_append]

/-- C5: for every directory entry returned by ListDir, the arena receives
one filesystem-type tag byte, the name bytes and two NUL bytes, the index
vector records the offset of the first name byte, and the entries "." and
".." (and only they) are filtered out. -/
theorem listdir_entry_layout :
    (∀ ds : List Dirent, listDirLoop ds [] [] =
      ((List.map entryBytes (kept ds)).flatten, offsets 0 (kept ds))) ∧
    (∀ name : List Nat, Dots name = true ↔ name = [46] ∨ name = [46, 46]) := by
  constructor
  · intro ds
    simpa using listDirLoop_char ds [] []
  · intro name
    rcases name with _ | ⟨c0, _ | ⟨c1, _ | ⟨c2, t⟩⟩⟩
    · simp [Dots]
    · by_cases h : c0 = 46 <;> simp [Dots, h]
    · by_cases h : c0 = 46 <;> by_cases h2 : c1 = 46 <;> simp [Dots, h, h2]
    · by_cases h : c0 = 46 <;> by_cases h2 : c1 = 46 <;> simp [Dots, h, h2]

/-- C6: the Linux ListDir returns false exactly when a syscall fails
(open fails or a getdents64 read errors), and true exactly when the
directory is read through to its end. -/
theorem listdir_result_iff_syscall (openOk : Bool) (reads : List ReadRes)
    (a e a2 e2 : List Nat) (r : Bool)
    (h : ListDirLinux openOk reads a e = some (r, a2, e2)) :
    (r = true ↔ openOk = true ∧ firstTerm reads = some true) ∧
    (r = false ↔ openOk = false ∨ firstTerm reads = some false) := by
  cases openOk with
  | false =>
    simp only [ListDirLinux, Bool.false_eq_true, if_false, Option.some.injEq,
      Prod.mk.injEq] at h
    obtain ⟨h1, -, -⟩ := h
    subst h1
    simp
  | true =>
    simp only [ListDirLinux, if_true] at h
    rw [getdentsLoop_firstTerm reads [] [] a2 e2 r h]
    cases r <;> simp

theorem listdir_result_iff_syscall_witness :
    (true = true ↔ true = true ∧ firstTerm [ReadRes.rend] = some true) ∧
    (true = false ↔ true = false ∨ firstTerm [ReadRes.rend] = some false) :=
  listdir_result_iff_syscall true [ReadRes.rend] [] [] [] [] true (by decide)

/-- C9: the Linux ListDir clears the caller-supplied arena and index
vector (its result does not depend on their prior contents), while the
portable ListDir appends after whatever the caller passed in, retaining
the prior contents as a prefix. -/
theorem listdir_clear_semantics :
    (∀ (reads : List ReadRes) (a e a2 e2 : List Nat),
      ListDirLinux true reads a e = ListDirLinux true reads a2 e2) ∧
    (∀ (ents : List Dirent) (a e : List Nat),
      ListDirPortable true ents a e =
        (true, a ++ (List.map entryBytes (kept ents)).flatten,
          e ++ offsets a.length (kept ents))) := by
  constructor
  · intro reads a e a2 e2
    simp [ListDirLinux]
  · intro ents a e
    simp [ListDirPortable, listDirLoop_char]

/-- C10: when a getdents64 read fails after some successful batches, the
Linux ListDir returns false and the arena and index vector keep the
entries appended before the failure; they are not rolled back. -/
theorem listdir_partial_failure (batches : List (List Dirent)) (rest : List ReadRes)
    (a e : List Nat) :
    ListDirLinux true (batches.map ReadRes.rdata ++ ReadRes.rerr :: rest) a e =
      some (false, (listDirLoop batches.flatten [] []).1,
        (listDirLoop batches.flatten [] []).2) := by
  simp [ListDirLinux, getdentsLoop_batches]

theorem prBody_ok (env : PREnv) (fields : List String)
    (h : prBody env = Except.ok fields) :
    (env.workdirRaw.getD []).length ≠ 0 ∧ fields = prFields env := by
  rw [prBody] at h
  split_ifs at h with h0 h1
  all_goals simp_all

theorem processRequest_normal (env : PREnv) (reqId : String)
    (h : (ProcessRequest env reqId).exit = ExitKind.normal) :
    ∃ tname, env.tagResult = Except.ok tname ∧
      (env.workdirRaw.getD []).length ≠ 0 ∧
      (ProcessRequest env reqId).output =
        [[reqId, "1", wdFieldOf env, commitOf env, env.localBranch, upFieldOf env,
          urlFieldOf env, env.repoState, toString env.hasStaged, toString env.hasUnstaged,
          toString env.hasUntracked, aheadOf env, behindOf env, toString env.numStashes,
          tname]] := by
  cases ho : env.openRes
  case onull => simp [ProcessRequest, ho] at h
  case othrow => simp [ProcessRequest, ho] at h
  case orepo =>
    cases hh : env.headRes
    case hnull => simp [ProcessRequest, ho, hh] at h
    case hthrow => simp [ProcessRequest, ho, hh] at h
    case hok =>
      cases hb : prBody env with
      | error hl => cases hl <;> simp [ProcessRequest, ho, hh, hb] at h
      | ok fields =>
        cases ht : env.tagResult with
        | error u => simp [ProcessRequest, ho, hh, hb, ht] at h
        | ok tname =>
          obtain ⟨hw, hf⟩ := prBody_ok env fields hb
          refine ⟨tname, rfl, hw, ?_⟩
          simp [ProcessRequest, ho, hh, hb, ht, dumpResponse, hf, prFields]

theorem stripSlashChars_eq_spec (w : List Char) : stripSlashChars w = specStripSlash w := by
  rcases w with _ | ⟨c, _ | ⟨c2, t2⟩⟩
  · simp [stripSlashChars, specStripSlash]
  · simp [stripSlashChars, specStripSlash]
  · have hlen : 1 < (c :: c2 :: t2).length := by simp
    have hne : (c :: c2 :: t2).length ≠ 1 := by simp
    by_cases hl : (c :: c2 :: t2).getLast? = some '/' <;>
      simp [stripSlashChars, specStripSlash, hlen, hne, hl]

/-- C1: whenever ProcessRequest has created the tag future, the future is
drained before the function exits, on every exit path: every early return
and every unwinding exception runs the scope guard's `tag.wait`, and the
normal path consumes the future with `tag.get`. -/
theorem tag_future_drained (env : PREnv) (reqId : String)
    (h : Ev.tagCreate ∈ (ProcessRequest env reqId).events) :
    (ProcessRequest env reqId).events = [Ev.tagCreate, Ev.tagWait] ∨
    (ProcessRequest env reqId).events = [Ev.tagCreate, Ev.tagGet] := by
  cases ho : env.openRes
  case onull => simp [ProcessRequest, ho] at h
  case othrow => simp [ProcessRequest, ho] at h
  case orepo =>
    cases hh : env.headRes
    case hnull => simp [ProcessRequest, ho, hh] at h
    case hthrow => simp [ProcessRequest, ho, hh] at h
    case hok =>
      cases hb : prBody env with
      | error hl => cases hl <;> simp [ProcessRequest, ho, hh, hb]
      | ok fields =>
        cases ht : env.tagResult <;> simp [ProcessRequest, ho, hh, hb, ht]

theorem tag_future_drained_witness :
    (ProcessRequest envUp "id1").events = [Ev.tagCreate, Ev.tagWait] ∨
    (ProcessRequest envUp "id1").events = [Ev.tagCreate, Ev.tagGet] :=
  tag_future_drained envUp "id1" (by decide)

/-- C2: every successfully processed request emits exactly one record
whose fields are, in this order: id, is_repo, workdir, commit,
local_branch, upstream_branch, remote_url, repo_state, has_staged,
has_unstaged, has_untracked, ahead, behind, num_stashes, tag — nothing
omitted, duplicated or reordered. -/
theorem response_field_order (env : PREnv) (reqId : String)
    (h : (ProcessRequest env reqId).exit = ExitKind.normal) :
    ∃ tname, env.tagResult = Except.ok tname ∧
      (ProcessRequest env reqId).output =
        [[reqId, "1", wdFieldOf env, commitOf env, env.localBranch, upFieldOf env,
          urlFieldOf env, env.repoState, toString env.hasStaged, toString env.hasUnstaged,
          toString env.hasUntracked, aheadOf env, behindOf env, toString env.numStashes,
          tname]] := by
  obtain ⟨t, h1, h2, h3⟩ := processRequest_normal env reqId h
  exact ⟨t, h1, h3⟩

theorem response_field_order_witness :
    ∃ tname, envUp.tagResult = Except.ok tname ∧
      (ProcessRequest envUp "id2").output =
        [["id2", "1", wdFieldOf envUp, commitOf envUp, envUp.localBranch, upFieldOf envUp,
          urlFieldOf envUp, envUp.repoState, toString envUp.hasStaged,
          toString envUp.hasUnstaged, toString envUp.hasUntracked, aheadOf envUp,
          behindOf envUp, toString envUp.numStashes, tname]] :=
  response_field_order envUp "id2" (by decide)

/-- C3: a request whose directory is not inside a repository, and a
request whose processing ends with an exception (io-error or
library-error), both produce the record containing the request id and
is_repo = "0" with no further fields. -/
theorem error_response (env : PREnv) (reqId : String)
    (h : env.openRes = OpenRes.onull ∨ (ProcessRequest env reqId).exit = ExitKind.exc) :
    (ProcessRequest env reqId).output = [[reqId, "0"]] := by
  cases h with
  | inl h0 => simp [ProcessRequest, h0, abortResponse]
  | inr hexc =>
    cases ho : env.openRes
    case onull => simp [ProcessRequest, ho, abortResponse]
    case othrow => simp [ProcessRequest, ho, abortResponse]
    case orepo =>
      cases hh : env.headRes
      case hnull => simp [ProcessRequest, ho, hh] at hexc
      case hthrow => simp [ProcessRequest, ho, hh, abortResponse]
      case hok =>
        cases hb : prBody env with
        | error hl => cases hl <;> simp [ProcessRequest, ho, hh, hb, abortResponse]
        | ok fields =>
          cases ht : env.tagResult with
          | error u => simp [ProcessRequest, ho, hh, hb, ht, abortResponse]
          | ok t => simp [ProcessRequest, ho, hh, hb, ht] at hexc

theorem error_response_witness :
    (ProcessRequest envNull "req7").output = [["req7", "0"]] :=
  error_response envNull "req7" (Or.inl rfl)

/-- C4: a malformed request (ReadRequest throws) is logged, produces no
response, and the loop goes on to process the remaining requests exactly
as it would have without the malformed one. -/
theorem malformed_request_dropped (pre post : List ReadReq) :
    GitStatusLoop (pre ++ ReadReq.malformed :: post) =
      ((GitStatusLoop pre).1 ++ (GitStatusLoop post).1,
       (GitStatusLoop pre).2 ++ LogEv.logReadError :: (GitStatusLoop post).2) := by
  induction pre with
  | nil => simp [GitStatusLoop]
  | cons r pre ih =>
    cases r with
    | malformed => simp [GitStatusLoop, ih]
    | good reqId env => simp [GitStatusLoop, ih]

/-- C7: in every full response, the workdir field is the repository's
working directory with its trailing slash stripped unless the path has
length one. -/
theorem workdir_slash_stripped (env : PREnv) (reqId : String)
    (h : (ProcessRequest env reqId).exit = ExitKind.normal) :
    ∃ rest : List String,
      (ProcessRequest env reqId).output =
        [reqId :: "1" :: String.mk (specStripSlash (env.workdirRaw.getD [])) :: rest] := by
  obtain ⟨t, h1, h2, h3⟩ := processRequest_normal env reqId h
  refine ⟨[commitOf env, env.localBranch, upFieldOf env, urlFieldOf env, env.repoState,
    toString env.hasStaged, toString env.hasUnstaged, toString env.hasUntracked,
    aheadOf env, behindOf env, toString env.numStashes, t], ?_⟩
  rw [h3]
  simp [wdFieldOf, stripSlashChars_eq_spec]

theorem workdir_slash_stripped_witness :
    ∃ rest : List String,
      (ProcessRequest envUp "id3").output =
        ["id3" :: "1" :: String.mk (specStripSlash (envUp.workdirRaw.getD [])) :: rest] :=
  workdir_slash_stripped envUp "id3" (by decide)

/-- C8: in every full response the ahead and behind fields are both "0"
when the branch has no upstream; with an upstream they are the commit
counts of the ranges upstream..HEAD and HEAD..upstream, which are
natural numbers and hence non-negative. -/
theorem ahead_behind_fields (env : PREnv) (reqId : String)
    (h : (ProcessRequest env reqId).exit = ExitKind.normal) :
    ∃ r, (ProcessRequest env reqId).output = [r] ∧ r.length = 15 ∧
      ((env.upstream = none ∧ r.getD 11 "" = "0" ∧ r.getD 12 "" = "0") ∨
       (∃ u, env.upstream = some u ∧
         r.getD 11 "" = toString (env.countRange (u ++ "..HEAD")) ∧
         r.getD 12 "" = toString (env.countRange ("HEAD.." ++ u)))) := by
  obtain ⟨t, h1, h2, h3⟩ := processRequest_normal env reqId h
  refine ⟨_, h3, by simp, ?_⟩
  cases hu : env.upstream with
  | none =>
    refine Or.inl ⟨rfl, ?_, ?_⟩
    · simp [List.getD, aheadOf, hu]
    · simp [List.getD, behindOf, hu]
  | some u =>
    refine Or.inr ⟨u, rfl, ?_, ?_⟩
    · simp [List.getD, aheadOf, hu]
    · simp [List.getD, behindOf, hu]

theorem ahead_behind_fields_witness :
    ∃ r, (ProcessRequest envUp "id4").output = [r] ∧ r.length = 15 ∧
      ((envUp.upstream = none ∧ r.getD 11 "" = "0" ∧ r.getD 12 "" = "0") ∨
       (∃ u, envUp.upstream = some u ∧
         r.getD 11 "" = toString (envUp.countRange (u ++ "..HEAD")) ∧
         r.getD 12 "" = toString (envUp.countRange ("HEAD.." ++ u)))) :=
  ahead_behind_fields envUp "id4" (by decide)

end Gitstatus
